import Mathlib

set_option maxHeartbeats 1000000
set_option maxRecDepth 4000

/-!
Shallow embedding of the meeting-analysis pipeline of the analyst agent:
transcript ingestion (ProcessUtterance), analysis-cycle trigger, snapshot
window selection (getRecentTranscript), fenced-JSON extraction
(extractJSONFromResponse), citation merging (addCitations), custom-prompt
safety validation (isSafeInstruction and the prompt builders), and the
read accessor (GetAnalysis).

Modelling conventions:
- wall-clock time is integer epoch seconds; the fixed 5-minute trigger
  interval is 300 seconds; fragment timestamps arrive as numbers and are
  kept as integers (the source truncates a float to int64 seconds);
- Go byte indices into strings are modelled as character indices into
  the underlying character list of a Lean String;
- Go pointers to GroundedContent are modelled as explicit heap addresses
  (Option Nat into a list heap), so pointer sharing is observable;
- grounding chunk indices and segment offsets are modelled as naturals
  (they denote positions parsed from the provider response);
- the external LLM meta-call used when synthesizing task prompts is an
  abstract function parameter returning Option String (none models a
  failed or empty meta-call).
-/

/-- One transcript entry (source struct TranscriptEntry: timestamp,
speaker, text, is_agent). -/
structure TranscriptEntry where
  timestamp : Int
  speaker : String
  text : String
  isAgent : Bool
  deriving DecidableEq

/-- One actionable item (source struct ActionItem). -/
structure ActionItem where
  id : String
  description : String
  assignee : String
  priority : String
  type : String
  status : String
  createdAt : Int
  deriving DecidableEq

/-- One discussion topic (source struct TopicDiscussion). -/
structure TopicDiscussion where
  topic : String
  startTime : String
  durationMinutes : Int
  summary : String
  participants : List String
  deriving DecidableEq

/-- Web source used for grounding (the anonymous Web struct inside the
source GroundingChunk). -/
structure WebSource where
  uri : String
  title : String
  deriving DecidableEq

/-- One grounding chunk (source struct GroundingChunk). -/
structure GroundingChunk where
  web : WebSource
  deriving DecidableEq

/-- Text span of a grounding support (the anonymous Segment struct inside
the source GroundingSupport). Offsets are positions into the generated
text. -/
structure GroundingSegment where
  startIndex : Nat
  endIndex : Nat
  text : String
  deriving DecidableEq

/-- One grounding support: a text span plus the chunk indices that back
it (source struct GroundingSupport). -/
structure GroundingSupport where
  segment : GroundingSegment
  groundingChunkIndices : List Nat
  deriving DecidableEq

/-- Grounding metadata of a grounded LLM response (source struct
GroundingMetadata; the searchEntryPoint passthrough field is not used
by any embedded operation and is omitted). -/
structure GroundingMetadata where
  webSearchQueries : List String
  groundingChunks : List GroundingChunk
  groundingSupports : List GroundingSupport
  deriving DecidableEq

/-- Grounded content (source struct GroundedContent). The source field
GroundingMetadata is a pointer; its aliasing is not needed by any claim,
so it is held by value here. -/
structure GroundedContent where
  text : String
  textWithCitations : String
  groundingMetadata : Option GroundingMetadata
  deriving DecidableEq

/-- The full analysis record (source struct AnalysisData). The two
GroundedContent fields are pointers in the source and are modelled as
heap addresses, so that the copy semantics of GetAnalysis is faithful. -/
structure AnalysisData where
  meetingID : String
  meetingURL : String
  startTime : Int
  lastUpdated : Int
  transcript : List TranscriptEntry
  summary : String
  groundedSummaryRef : Option Nat
  keyPoints : List String
  groundedKeyPointsRef : Option Nat
  actionItems : List ActionItem
  topics : List TopicDiscussion
  participants : List String
  durationMinutes : Int
  wordCount : Nat
  sentiment : String
  keywords : List String
  deriving DecidableEq

/-- One raw utterance fragment of an ingestion batch. The source receives
a map with optional speaker, text and numeric timestamp entries; a field
is none when the key is absent or not of the asserted dynamic type. -/
structure UtteranceSegment where
  speaker : Option String
  text : Option String
  timestamp : Option Int
  deriving DecidableEq

/-- Result of one ProcessUtterance call: the updated record, whether the
record was persisted, and whether an analysis cycle was triggered. -/
structure AppendResult where
  data : AnalysisData
  saved : Bool
  triggered : Bool
  deriving DecidableEq

/-- Single pass over the fragments of a batch, mirroring the one loop of
the source: the running speaker starts at the placeholder Participant and
is overwritten by every non-empty speaker; the running timestamp starts
at now and is overwritten by every supplied numeric timestamp; every
non-empty fragment text is appended, preceded by one space whenever the
fragment index is positive. Returns (speaker, timestamp, fullText). -/
def scanSegmentsAux : Nat → List UtteranceSegment → String → Int → String → String × Int × String
  | _, [], speaker, timestamp, text => (speaker, timestamp, text)
  | i, seg :: rest, speaker, timestamp, text =>
    scanSegmentsAux (i + 1) rest
      (match seg.speaker with
        | some s => if s = "" then speaker else s
        | none => speaker)
      (match seg.timestamp with
        | some ts => ts
        | none => timestamp)
      (match seg.text with
        | some t => if t = "" then text else text ++ (if 0 < i then " " else "") ++ t
        | none => text)

/-- The whitespace-token count of a string (source strings.Fields length:
split on whitespace, count the non-empty pieces). -/
def fieldsCount (s : String) : Nat :=
  ((s.split Char.isWhitespace).filter (fun t => t ≠ "")).length

/-- Deduplicating participant insertion (source updateParticipants): the
speaker is appended only if not already present, order preserved. -/
def updateParticipants (participants : List String) (speaker : String) : List String :=
  if participants.contains speaker then participants else participants ++ [speaker]

/-- Ingestion of one utterance batch (source ProcessUtterance). Empty
batches and batches whose concatenated text is empty are complete no-ops
with no save and no trigger. Otherwise one entry is appended, counters
advance, the record is persisted, and a cycle is triggered exactly when
more than 300 seconds elapsed since the last cycle start or the new
transcript length is a multiple of 20. -/
def processUtterance (now lastAnalysis : Int) (segments : List UtteranceSegment)
    (d : AnalysisData) : AppendResult :=
  if segments.length = 0 then ⟨d, false, false⟩
  else
    let scanned := scanSegmentsAux 0 segments "Participant" now ""
    let speaker := scanned.1
    let timestamp := scanned.2.1
    let transcriptText := scanned.2.2
    if transcriptText = "" then ⟨d, false, false⟩
    else
      let entry : TranscriptEntry := ⟨timestamp, speaker, transcriptText, false⟩
      let transcript := d.transcript ++ [entry]
      let d1 := { d with
        transcript := transcript
        participants := updateParticipants d.participants speaker
        lastUpdated := now
        wordCount := d.wordCount + fieldsCount transcriptText
        durationMinutes := now - d.startTime }
      ⟨d1, true, decide (300 < now - lastAnalysis) || decide (transcript.length % 20 = 0)⟩

/-- Window selection over the transcript (source getRecentTranscript).
When a cycle has installed a snapshot, the window is cut from the
snapshot; otherwise from the live transcript. The start offset is
clamped at zero, which natural subtraction performs here. -/
def getRecentTranscript (snapshot : Option (List TranscriptEntry))
    (live : List TranscriptEntry) (count : Nat) : List TranscriptEntry :=
  match snapshot with
  | some snap =>
    if snap.length = 0 then []
    else snap.drop (snap.length - count)
  | none =>
    if live.length = 0 then []
    else live.drop (live.length - count)

/-- First occurrence index of a pattern inside a character list, or none
(source strings.Index, with none for the minus-one absent case). -/
def firstIdxOf (pat : List Char) : List Char → Option Nat
  | [] => if pat.isPrefixOf ([] : List Char) then some 0 else none
  | c :: t =>
    if pat.isPrefixOf (c :: t) then some 0
    else (firstIdxOf pat t).map (fun n => n + 1)

/-- Substring containment as a boolean (source strings.Contains, pattern
first). -/
def containsSubB (pat : List Char) : List Char → Bool
  | [] => pat.isPrefixOf ([] : List Char)
  | c :: t => pat.isPrefixOf (c :: t) || containsSubB pat t

/-- Whitespace trimming at both ends (source strings.TrimSpace). -/
def trimSpace (s : String) : String :=
  ⟨((s.data.dropWhile Char.isWhitespace).reverse.dropWhile Char.isWhitespace).reverse⟩

/-- Fenced JSON extraction (source extractJSONFromResponse): find the
first occurrence of the opening fence, then the next closing fence after
it, and return the trimmed content in between; empty string when either
fence is missing. -/
def extractJSONFromResponse (response : String) : String :=
  match firstIdxOf "```json".data response.data with
  | none => ""
  | some startIdx =>
    match firstIdxOf "```".data (response.data.drop (startIdx + "```json".length)) with
    | none => ""
    | some endIdx =>
      trimSpace ⟨(response.data.drop (startIdx + "```json".length)).take endIdx⟩

/-- Splice a string into another at a character offset (the source
expression result[:endIndex] + citation + result[endIndex:]). -/
def strInsert (s : String) (idx : Nat) (ins : String) : String :=
  ⟨s.data.take idx ++ ins.data ++ s.data.drop idx⟩

/-- One citation token for chunk index i (source fmt.Sprintf of
[displayNumber](uri) with display number i + 1). The guard in
citationLinks guarantees the index is in range when this is used. -/
def citationToken (chunks : List GroundingChunk) (i : Nat) : String :=
  "[" ++ toString (i + 1) ++ "](" ++ (chunks.getD i ⟨⟨"", ""⟩⟩).web.uri ++ ")"

/-- The citation tokens of a support (the inner loop of the source
addCitations): one token per referenced chunk index that is in range of
the chunk list; out-of-range indices are skipped individually. -/
def citationLinks (chunks : List GroundingChunk) : List Nat → List String
  | [] => []
  | i :: rest =>
    if i < chunks.length then citationToken chunks i :: citationLinks chunks rest
    else citationLinks chunks rest

/-- The marker string spliced in for one support: the comma-joined
citation tokens, prefixed with one space (the source citationString). -/
def citationMarker (chunks : List GroundingChunk) (idxs : List Nat) : String :=
  " " ++ String.intercalate ", " (citationLinks chunks idxs)

/-- Processing of one support during citation merging (one iteration of
the outer loop of the source addCitations): skipped entirely unless it
references at least one chunk index and its end offset is within the
current text; otherwise the marker is spliced in at the end offset when
at least one referenced index was in range. -/
def applySupport (chunks : List GroundingChunk) (result : String)
    (support : GroundingSupport) : String :=
  if 0 < support.groundingChunkIndices.length ∧ support.segment.endIndex ≤ result.length then
    if 0 < (citationLinks chunks support.groundingChunkIndices).length then
      strInsert result support.segment.endIndex
        (citationMarker chunks support.groundingChunkIndices)
    else result
  else result

/-- One bounded bubble pass: compare and swap the first n adjacent pairs,
swapping when the left end offset is strictly smaller (the inner loop of
the source addCitations sort, bound n = len - 1 - i). -/
def bubblePassN : Nat → List GroundingSupport → List GroundingSupport
  | n + 1, a :: b :: rest =>
    if a.segment.endIndex < b.segment.endIndex then b :: bubblePassN n (a :: rest)
    else a :: bubblePassN n (b :: rest)
  | _, l => l

/-- The outer loop of the source bubble sort: pass i of n runs with
bound n - 1 - i, so the passes run with bounds n - 1, n - 2, ..., 0. -/
def bubbleLoop : Nat → List GroundingSupport → List GroundingSupport
  | 0, l => l
  | k + 1, l => bubbleLoop k (bubblePassN k l)

/-- Citation merging (source addCitations): with nil metadata or zero
supports the text is returned unchanged; otherwise the supports are
bubble-sorted by end offset descending and spliced in one by one. -/
def addCitations (text : String) (groundingMetadata : Option GroundingMetadata) : String :=
  match groundingMetadata with
  | none => text
  | some md =>
    if md.groundingSupports.length = 0 then text
    else (bubbleLoop md.groundingSupports.length md.groundingSupports).foldl
      (applySupport md.groundingChunks) text

/-- Lowercasing of a string, character by character (source
strings.ToLower; the denylist patterns are ASCII). -/
def toLowerStr (s : String) : String :=
  ⟨s.data.map Char.toLower⟩

/-- The fixed denylist of harmful substrings (source harmfulPatterns). -/
def harmfulPatterns : List String :=
  ["<script", "javascript:", "eval(", "function(",
   "import ", "require(", "exec(", "system(",
   "rm ", "del ", "format ", "drop table",
   "alter table", "truncate table"]

/-- Custom-instruction validation (source isSafeInstruction): reject when
longer than 5000 characters or when the lowercased text contains any
denylisted substring. -/
def isSafeInstruction (instructions : String) : Bool :=
  if 5000 < instructions.length then false
  else !(harmfulPatterns.any (fun p => containsSubB p.data (toLowerStr instructions).data))

/-- The default prompt for an analysis type (source getDefaultPrompt),
with the transcript spliced into the %s slot. -/
def getDefaultPrompt (analysisType transcript : String) : String :=
  match analysisType with
  | "summary" =>
    "Analyze this meeting transcript and provide a comprehensive summary. You MUST use the google_search tool to validate and verify any factual claims, statistics, figures, technical details, company information, or specific statements that can be fact-checked.\n\nFocus on:\n- Main topics discussed\n- Key decisions made\n- Important information shared\n- Overall meeting progress and outcomes\n- Validation of any claims, facts, or figures mentioned\n\nIMPORTANT: For any factual statements, statistics, company data, technical specifications, or verifiable claims mentioned in the meeting:\n1. Use google_search to verify the accuracy\n2. Cross-reference multiple sources when possible\n3. Note if information cannot be verified or appears outdated\n4. Include relevant context from your search results\n\nTranscript:\n" ++ transcript
  | "key_points" =>
    "Extract the most important key points from this meeting transcript. Focus on:\n- Important decisions or agreements\n- Critical information shared\n- Action-oriented statements\n- Questions that need answers\n- Commitments made\n\nTranscript:\n" ++ transcript
  | "action_items" =>
    "Identify action items from this meeting transcript. Be VERY AGGRESSIVE in finding actionables - look beyond explicit tasks to identify research opportunities, follow-ups, and valuable investigations.\n\nLook for:\n- Explicit tasks that need to be completed\n- Follow-ups required from discussions\n- Decisions that need implementation\n- Assignments given to specific people\n- Deadlines mentioned\n- Research opportunities mentioned or implied\n- Unresolved questions that need investigation\n- Topics that participants showed interest in exploring further\n- Problems or challenges that need solutions\n- Ideas worth developing or validating\n- Market research, competitive analysis, or data gathering needs\n- Technical investigations or proof-of-concepts to build\n- Stakeholder consultations or expert opinions to seek\n- Tools, processes, or systems to evaluate\n- Industry trends or best practices to research\n\nFor discussions about personalities, roles, or team dynamics:\n- Research specific methodologies, frameworks, or tools mentioned\n- Investigate industry best practices for team challenges discussed\n- Find case studies or examples relevant to situations discussed\n- Look up experts, books, or resources that could help\n\nEVEN IF NO EXPLICIT TASKS ARE MENTIONED, identify valuable research directions, learning opportunities, or investigative actions that would benefit the participants based on their discussions.\n\nFor each action item, specify:\n- Description of what needs to be done\n- Who is responsible (if mentioned, otherwise suggest who might be best suited)\n- Priority level (high/medium/low) based on urgency and importance\n- Due date (if mentioned, otherwise suggest reasonable timeframe)\n- Type: task/research/investigation/follow-up/decision\n\nTranscript:\n" ++ transcript
  | "topics" =>
    "Analyze this meeting transcript and identify the main discussion topics. For each topic, provide:\n- Topic name/title\n- Brief summary of what was discussed\n- Key participants involved\n- Approximate start time and duration\n\nTranscript:\n" ++ transcript
  | "sentiment_keywords" =>
    "Analyze the sentiment and extract keywords from this meeting transcript.\n\nDetermine the overall sentiment of the discussion and identify the most important keywords and phrases.\n\nTranscript:\n" ++ transcript
  | _ =>
    "Analyze this meeting transcript and provide insights.\n\nTranscript:\n" ++ transcript

/-- Direct prompt construction (source buildDirectPrompt): validate the
client instructions, fall back to the default prompt when rejected,
otherwise inline the instructions into the task wrapper template. -/
def buildDirectPrompt (analysisType clientInstructions transcript : String) : String :=
  if !(isSafeInstruction clientInstructions) then getDefaultPrompt analysisType transcript
  else
    match analysisType with
    | "summary" =>
      "Analyze this meeting transcript and provide a comprehensive summary.\n\nAdditional Instructions: " ++ clientInstructions ++ "\n\nTranscript:\n" ++ transcript
    | "key_points" =>
      "Extract the most important key points from this meeting transcript.\n\nAdditional Instructions: " ++ clientInstructions ++ "\n\nTranscript:\n" ++ transcript
    | "action_items" =>
      "Identify all actionable items from this meeting transcript.\n\nAdditional Instructions: " ++ clientInstructions ++ "\n\nFor each action item, specify:\n- Description of what needs to be done\n- Who is responsible (if mentioned)\n- Priority level (high/medium/low)\n- Due date (if mentioned)\n\nTranscript:\n" ++ transcript
    | "topics" =>
      "Analyze this meeting transcript and identify the main discussion topics.\n\nAdditional Instructions: " ++ clientInstructions ++ "\n\nFor each topic, provide:\n- Topic name/title\n- Brief summary of what was discussed\n- Key participants involved\n- Approximate start time and duration\n\nTranscript:\n" ++ transcript
    | "sentiment_keywords" =>
      "Analyze the sentiment and extract important keywords from this meeting transcript.\n\nAdditional Instructions: " ++ clientInstructions ++ "\n\nDetermine the overall sentiment and identify key themes and important terms.\n\nTranscript:\n" ++ transcript
    | _ => getDefaultPrompt analysisType transcript

/-- The task wrapper used when a synthesized task prompt is available
(the switch inside the source buildSecurePromptFromInstructions). -/
def secureWrapper (analysisType taskPrompt transcript : String) : String :=
  match analysisType with
  | "summary" =>
    taskPrompt ++ "\n\nBased on your expertise and role described above, analyze this meeting transcript and provide a comprehensive summary.\n\nTranscript:\n" ++ transcript
  | "key_points" =>
    taskPrompt ++ "\n\nBased on your expertise and role described above, extract the most important key points from this meeting transcript.\n\nTranscript:\n" ++ transcript
  | "action_items" =>
    taskPrompt ++ "\n\nBased on your expertise and role described above, identify all actionable items from this meeting transcript.\n\nFor each action item, specify:\n- Description of what needs to be done\n- Who is responsible (if mentioned)\n- Priority level (high/medium/low)\n- Due date (if mentioned)\n\nTranscript:\n" ++ transcript
  | "topics" =>
    taskPrompt ++ "\n\nBased on your expertise and role described above, analyze this meeting transcript and identify the main discussion topics.\n\nFor each topic, provide:\n- Topic name/title\n- Brief summary of what was discussed\n- Key participants involved\n- Approximate start time and duration\n\nTranscript:\n" ++ transcript
  | "sentiment_keywords" =>
    taskPrompt ++ "\n\nBased on your expertise and role described above, analyze the sentiment and extract important keywords from this meeting transcript.\n\nDetermine the overall sentiment and identify key themes and important terms.\n\nTranscript:\n" ++ transcript
  | _ => getDefaultPrompt analysisType transcript

/-- Secure prompt construction from custom instructions (source
buildSecurePromptFromInstructions). The agent configuration custom
prompt is the first argument; genTaskPrompt abstracts the extra LLM
meta-call synthesizing task instructions, none modelling a failed or
empty meta-call. A rejected custom prompt silently degrades to the
default prompt for the task. -/
def buildSecurePromptFromInstructions (customPromptCfg : Option String)
    (genTaskPrompt : String → String → Option String)
    (analysisType customInstructions transcript : String) : String :=
  match customPromptCfg with
  | none => buildDirectPrompt analysisType customInstructions transcript
  | some cp =>
    if cp = "" then buildDirectPrompt analysisType customInstructions transcript
    else if !(isSafeInstruction cp) then getDefaultPrompt analysisType transcript
    else
      match genTaskPrompt analysisType cp with
      | none => buildDirectPrompt analysisType customInstructions transcript
      | some taskPrompt => secureWrapper analysisType taskPrompt transcript

/-- Heap lookup for the GroundedContent pointer model. -/
def heapRead : List GroundedContent → Nat → Option GroundedContent
  | [], _ => none
  | gc :: _, 0 => some gc
  | _ :: rest, n + 1 => heapRead rest n

/-- Heap update of the text field at an address: the model of the field
assignment content.Text = s through a pointer. -/
def heapWriteText : List GroundedContent → Nat → String → List GroundedContent
  | [], _, _ => []
  | gc :: rest, 0, s => { gc with text := s } :: rest
  | gc :: rest, n + 1, s => gc :: heapWriteText rest n s

/-- Dereference an optional GroundedContent pointer. -/
def readRef (heap : List GroundedContent) : Option Nat → Option GroundedContent
  | none => none
  | some r => heapRead heap r

/-- The read accessor (source GetAnalysis): the struct is copied field by
field and each slice of value-typed elements is copied into a fresh
slice, which value semantics renders as the same list; the two
GroundedContent pointer fields are copied as addresses, so the copy
aliases the same heap cells as the record. -/
def getAnalysis (d : AnalysisData) : AnalysisData :=
  { meetingID := d.meetingID
    meetingURL := d.meetingURL
    startTime := d.startTime
    lastUpdated := d.lastUpdated
    transcript := d.transcript
    summary := d.summary
    groundedSummaryRef := d.groundedSummaryRef
    keyPoints := d.keyPoints
    groundedKeyPointsRef := d.groundedKeyPointsRef
    actionItems := d.actionItems
    topics := d.topics
    participants := d.participants
    durationMinutes := d.durationMinutes
    wordCount := d.wordCount
    sentiment := d.sentiment
    keywords := d.keywords }

/-- Spec-side helper: the non-empty texts supplied by the fragments of a
batch, in arrival order. -/
def nonEmptyTexts (segments : List UtteranceSegment) : List String :=
  segments.filterMap (fun seg => match seg.text with
    | some t => if t = "" then none else some t
    | none => none)

/-- Spec-side helper: the non-empty speakers supplied by the fragments of
a batch, in arrival order. -/
def suppliedSpeakers (segments : List UtteranceSegment) : List String :=
  segments.filterMap (fun seg => match seg.speaker with
    | some s => if s = "" then none else some s
    | none => none)

/-- Spec-side helper: the numeric timestamps supplied by the fragments of
a batch, in arrival order. -/
def suppliedTimestamps (segments : List UtteranceSegment) : List Int :=
  segments.filterMap (fun seg => seg.timestamp)

/-- Spec-side helper: concatenation with single-space separators, the
reading of the claim that the entry text is the fragment texts joined
with single spaces. -/
def joinSpace : List String → String
  | [] => ""
  | [t] => t
  | t :: rest => t ++ " " ++ joinSpace rest

/-- Spec-side helper: each string prefixed by one space, concatenated.
This is the shape the ingestion loop produces for every contributing
fragment at a positive index. -/
def joinSpacePrefixed : List String → String
  | [] => ""
  | t :: rest => " " ++ t ++ joinSpacePrefixed rest

/-- The text contribution of a fragment list whose fragments all sit at
positive indices of the batch. -/
def prefixedTexts : List UtteranceSegment → String
  | [] => ""
  | seg :: rest =>
    (match seg.text with
      | some t => if t = "" then "" else " " ++ t
      | none => "") ++ prefixedTexts rest

/-- The leading-space artifact of the ingestion loop: one space leads the
entry text exactly when the first fragment of the batch does not supply
non-empty text. -/
def leadingSpaceMark (segments : List UtteranceSegment) : String :=
  match segments with
  | [] => ""
  | seg :: _ => match seg.text with
    | some t => if t = "" then " " else ""
    | none => " "

/-- Substring-order checker: whether a occurs in hay strictly before b
(first occurrences compared). -/
def appearsBefore (hay a b : String) : Bool :=
  match firstIdxOf a.data hay.data, firstIdxOf b.data hay.data with
  | some i, some j => decide (i < j)
  | _, _ => false

/-- Concrete record used by witnesses: grounded summary held at heap
address 0. -/
def exAnalysisData : AnalysisData :=
  { meetingID := "m1"
    meetingURL := "https://example.org/meet"
    startTime := 0
    lastUpdated := 0
    transcript := []
    summary := "s"
    groundedSummaryRef := some 0
    keyPoints := []
    groundedKeyPointsRef := none
    actionItems := []
    topics := []
    participants := []
    durationMinutes := 0
    wordCount := 0
    sentiment := ""
    keywords := [] }

/-- Concrete heap used by witnesses: one grounded content cell. -/
def exHeap : List GroundedContent :=
  [⟨"original", "original", none⟩]

/-- Concrete batch refuting the plain-join reading of the ingestion
contract: fragments with texts empty, a, empty, b. -/
def c3Segments : List UtteranceSegment :=
  [⟨none, some "", none⟩, ⟨none, some "a", none⟩,
   ⟨none, some "", none⟩, ⟨none, some "b", none⟩]

/-- Concrete text for the citation-order counterexample. -/
def c2Text : String := "abcdefghijklmnopqrstuvwxyz"

/-- Concrete metadata for the citation-order counterexample: two supports
at end offsets 10 and 20 referencing distinct in-range chunks. -/
def c2Metadata : GroundingMetadata :=
  { webSearchQueries := []
    groundingChunks := [⟨⟨"u0", "t0"⟩⟩, ⟨⟨"u1", "t1"⟩⟩]
    groundingSupports :=
      [⟨⟨0, 10, ""⟩, [0]⟩, ⟨⟨0, 20, ""⟩, [1]⟩] }

/-! Helper lemmas about Lean strings viewed as character lists. -/

/-- Two strings with the same character data are equal. -/
theorem strEq_of_data {a b : String} (h : a.data = b.data) : a = b := by
  cases a; cases b; exact congrArg String.mk h

/-- Appending strings appends their character data. -/
theorem strData_append (a b : String) : (a ++ b).data = a.data ++ b.data := by
  cases a; cases b; rfl

/-- The empty string is a right identity of string append. -/
theorem str_append_empty (s : String) : s ++ "" = s :=
  strEq_of_data (by rw [strData_append]; simp)

/-- The empty string is a left identity of string append. -/
theorem str_empty_append (s : String) : "" ++ s = s :=
  strEq_of_data (by rw [strData_append]; simp)

/-- String append is associative. -/
theorem str_append_assoc (a b c : String) : a ++ b ++ c = a ++ (b ++ c) :=
  strEq_of_data (by simp [strData_append, List.append_assoc])

/-- C1: snapshot isolation of window selection. Whenever a cycle has
installed a snapshot, getRecentTranscript returns the last
min(count, snapshot length) entries of the snapshot, its result does not
depend on the live transcript at all, and entries appended to the live
transcript after the snapshot was taken are invisible to it. -/
theorem getRecentTranscript_snapshot_isolation
    (snap live live2 extra : List TranscriptEntry) (count : Nat) :
    getRecentTranscript (some snap) live count = snap.drop (snap.length - count) ∧
    (getRecentTranscript (some snap) live count).length = min count snap.length ∧
    getRecentTranscript (some snap) live count = getRecentTranscript (some snap) live2 count ∧
    getRecentTranscript (some snap) (live ++ extra) count
      = getRecentTranscript (some snap) live count := by
  have hdrop : getRecentTranscript (some snap) live count = snap.drop (snap.length - count) := by
    by_cases h : snap.length = 0
    · rw [List.length_eq_zero] at h
      subst h
      simp [getRecentTranscript]
    · simp [getRecentTranscript, h]
  refine ⟨hdrop, ?_, rfl, rfl⟩
  rw [hdrop, List.length_drop]
  omega

/-- If the pattern occurs nowhere in the haystack, index search fails. -/
theorem firstIdxOf_eq_none_of_not_contains (pat hay : List Char)
    (h : containsSubB pat hay = false) : firstIdxOf pat hay = none := by
  induction hay with
  | nil =>
    simp only [containsSubB] at h
    simp [firstIdxOf, h]
  | cons c t ih =>
    simp only [containsSubB, Bool.or_eq_false_iff] at h
    simp [firstIdxOf, h.1, ih h.2]

/-- C7: the response parser returns the empty extraction on any reply
that contains no opening JSON fence, and on the concrete reply
prefix json-fence open, object a maps to 1, fence close, suffix it
returns exactly the trimmed inner JSON object text. -/
theorem extractJSON_fence_contract :
    (∀ response : String, containsSubB "```json".data response.data = false →
      extractJSONFromResponse response = "") ∧
    extractJSONFromResponse "prefix ```json \x7b\"a\":1\x7d ``` suffix" = "\x7b\"a\":1\x7d" := by
  constructor
  · intro response h
    unfold extractJSONFromResponse
    rw [firstIdxOf_eq_none_of_not_contains _ _ h]
  · decide

/-- Witness for C7 at a fence-free concrete reply. -/
theorem extractJSON_fence_contract_witness :
    extractJSONFromResponse "no fence in this reply" = "" :=
  extractJSON_fence_contract.1 "no fence in this reply" (by decide)

/-- An instruction string that is over-long or matches the denylist is
rejected by the validator. -/
theorem isSafeInstruction_false_of_condition (s : String)
    (h : 5000 < s.length ∨
      harmfulPatterns.any (fun p => containsSubB p.data (toLowerStr s).data) = true) :
    isSafeInstruction s = false := by
  unfold isSafeInstruction
  rcases h with h | h
  · simp [h]
  · by_cases hl : 5000 < s.length
    · simp [hl]
    · simp [hl, h]

/-- C9: every custom-instructions string longer than 5000 characters or
containing a denylisted substring under the case-insensitive scan makes
both prompt-construction paths silently return the default prompt for
the task; no error is produced (the builders are total functions). -/
theorem rejected_instructions_default_prompt (s ty tr : String)
    (gen : String → String → Option String)
    (h : 5000 < s.length ∨
      harmfulPatterns.any (fun p => containsSubB p.data (toLowerStr s).data) = true) :
    buildSecurePromptFromInstructions (some s) gen ty s tr = getDefaultPrompt ty tr ∧
    buildDirectPrompt ty s tr = getDefaultPrompt ty tr := by
  have hu : isSafeInstruction s = false := isSafeInstruction_false_of_condition s h
  have hne : s ≠ "" := by
    intro he
    subst he
    exact absurd hu (by decide)
  constructor
  · unfold buildSecurePromptFromInstructions
    simp [hne, hu]
  · unfold buildDirectPrompt
    simp [hu]

/-- Witness for C9 at a concrete denylisted instruction. -/
theorem rejected_instructions_default_prompt_witness :
    buildSecurePromptFromInstructions (some "please eval( this") (fun _ _ => none)
        "summary" "please eval( this" "T" = getDefaultPrompt "summary" "T" ∧
    buildDirectPrompt "summary" "please eval( this" "T" = getDefaultPrompt "summary" "T" :=
  rejected_instructions_default_prompt "please eval( this" "summary" "T" (fun _ _ => none)
    (Or.inr (by decide))

/-- C8: citation merging is lenient. Nil metadata returns the text
unchanged; zero supports return the text unchanged; a single support
whose end offset exceeds the text length is skipped entirely, leaving
the text unchanged; and within a processed support exactly the in-range
referenced chunk indices produce tokens, out-of-range ones being skipped
individually. All paths are total, so none of these cases is an error. -/
theorem addCitations_edge_cases :
    (∀ t : String, addCitations t none = t) ∧
    (∀ (t : String) (md : GroundingMetadata), md.groundingSupports = [] →
      addCitations t (some md) = t) ∧
    (∀ (t : String) (md : GroundingMetadata) (s : GroundingSupport),
      md.groundingSupports = [s] → t.length < s.segment.endIndex →
      addCitations t (some md) = t) ∧
    (∀ (chunks : List GroundingChunk) (idxs : List Nat),
      citationLinks chunks idxs =
        (idxs.filter (fun i => decide (i < chunks.length))).map (citationToken chunks)) := by
  refine ⟨fun t => rfl, ?_, ?_, ?_⟩
  · intro t md h
    simp [addCitations, h]
  · intro t md s h hlen
    simp only [addCitations]
    rw [h]
    have hloop : bubbleLoop ([s] : List GroundingSupport).length [s] = [s] := rfl
    rw [hloop]
    have happ : applySupport md.groundingChunks t s = t := by
      unfold applySupport
      rw [if_neg]
      intro hc
      omega
    simp [happ]
  · intro chunks idxs
    induction idxs with
    | nil => rfl
    | cons i rest ih =>
      by_cases h : i < chunks.length <;> simp [citationLinks, h, ih]

/-- Witness for C8 at concrete inputs: zero supports, an out-of-range
end offset, and a chunk-index list with one in-range and one
out-of-range index. -/
theorem addCitations_edge_cases_witness :
    addCitations "ab" (some ⟨[], [], []⟩) = "ab" ∧
    addCitations "ab" (some ⟨[], [⟨⟨"u", "t"⟩⟩], [⟨⟨0, 5, ""⟩, [0]⟩]⟩) = "ab" ∧
    citationLinks [⟨⟨"u", "t"⟩⟩] [0, 3] =
      (([0, 3] : List Nat).filter
        (fun i => decide (i < ([⟨⟨"u", "t"⟩⟩] : List GroundingChunk).length))).map
        (citationToken [⟨⟨"u", "t"⟩⟩]) :=
  ⟨addCitations_edge_cases.2.1 "ab" ⟨[], [], []⟩ rfl,
   addCitations_edge_cases.2.2.1 "ab" ⟨[], [⟨⟨"u", "t"⟩⟩], [⟨⟨0, 5, ""⟩, [0]⟩]⟩ ⟨⟨0, 5, ""⟩, [0]⟩
     rfl (by decide),
   addCitations_edge_cases.2.2.2 [⟨⟨"u", "t"⟩⟩] [0, 3]⟩

/-- C2 counterexample: at a concrete text of length 26 with two supports
at end offsets 10 and 20 referencing distinct in-range chunks, both
markers are present and unshifted, but the marker for offset 20 appears
after, not before, the marker for offset 10 in the final string, because
descending-order insertion puts the offset-20 marker past the original
offset-20 content while the offset-10 marker sits at offset 10. -/
theorem addCitations_marker_order_cex :
    addCitations c2Text (some c2Metadata)
      = "abcdefghij [1](u0)klmnopqrst [2](u1)uvwxyz" ∧
    appearsBefore (addCitations c2Text (some c2Metadata)) " [2](u1)" " [1](u0)" = false ∧
    appearsBefore (addCitations c2Text (some c2Metadata)) " [1](u0)" " [2](u1)" = true := by
  refine ⟨by decide, by decide, by decide⟩

/-- C2 amended: with exactly two supports at end offsets 10 and 20, each
referencing one distinct in-range chunk index, the final text is
text take 10, then the offset-10 marker, then the original characters 10
to 20, then the offset-20 marker, then the rest: both markers are
present, the offset-20 marker is inserted first so neither insertion
shifts the target offset of the other, and in the final string the
marker for offset 10 appears before the marker for offset 20. -/
theorem addCitations_two_supports
    (t : String) (md : GroundingMetadata) (s1 s2 : GroundingSupport) (i1 i2 : Nat)
    (horder : md.groundingSupports = [s1, s2] ∨ md.groundingSupports = [s2, s1])
    (h1 : s1.segment.endIndex = 10) (h2 : s2.segment.endIndex = 20)
    (hc1 : s1.groundingChunkIndices = [i1]) (hc2 : s2.groundingChunkIndices = [i2])
    (hi1 : i1 < md.groundingChunks.length) (hi2 : i2 < md.groundingChunks.length)
    (hij : i1 ≠ i2) (hlen : 20 ≤ t.length) :
    (addCitations t (some md)).data =
      t.data.take 10 ++ (citationMarker md.groundingChunks [i1]).data
        ++ (t.data.take 20).drop 10 ++ (citationMarker md.groundingChunks [i2]).data
        ++ t.data.drop 20 := by
  have hlen' : 20 ≤ t.data.length := hlen
  have hsup2 : md.groundingSupports.length = 2 := by
    rcases horder with h | h <;> rw [h] <;> rfl
  have hpass1 : bubblePassN 1 [s1, s2] = [s2, s1] := by
    have e : bubblePassN 1 [s1, s2]
        = if s1.segment.endIndex < s2.segment.endIndex then [s2, s1] else [s1, s2] := rfl
    rw [e, h1, h2]
    norm_num
  have hpass2 : bubblePassN 1 [s2, s1] = [s2, s1] := by
    have e : bubblePassN 1 [s2, s1]
        = if s2.segment.endIndex < s1.segment.endIndex then [s1, s2] else [s2, s1] := rfl
    rw [e, h1, h2]
    norm_num
  have hsort : bubbleLoop md.groundingSupports.length md.groundingSupports = [s2, s1] := by
    rw [hsup2]
    rcases horder with h | h <;> rw [h]
    · show bubbleLoop 1 (bubblePassN 1 [s1, s2]) = [s2, s1]
      rw [hpass1]
      rfl
    · show bubbleLoop 1 (bubblePassN 1 [s2, s1]) = [s2, s1]
      rw [hpass2]
      rfl
  have hlinks1 : citationLinks md.groundingChunks [i1] = [citationToken md.groundingChunks i1] := by
    simp [citationLinks, hi1]
  have hlinks2 : citationLinks md.groundingChunks [i2] = [citationToken md.groundingChunks i2] := by
    simp [citationLinks, hi2]
  have hstep2 : applySupport md.groundingChunks t s2
      = strInsert t 20 (citationMarker md.groundingChunks [i2]) := by
    unfold applySupport
    rw [hc2, h2, if_pos ⟨by norm_num, hlen⟩,
      if_pos (by rw [hlinks2]; norm_num : 0 < (citationLinks md.groundingChunks [i2]).length)]
  have hlen1 : 10 ≤ (strInsert t 20 (citationMarker md.groundingChunks [i2])).length := by
    show 10 ≤ (strInsert t 20 (citationMarker md.groundingChunks [i2])).data.length
    simp [strInsert]
    omega
  have hstep1 : applySupport md.groundingChunks
        (strInsert t 20 (citationMarker md.groundingChunks [i2])) s1
      = strInsert (strInsert t 20 (citationMarker md.groundingChunks [i2])) 10
          (citationMarker md.groundingChunks [i1]) := by
    unfold applySupport
    rw [hc1, h1, if_pos ⟨by norm_num, hlen1⟩,
      if_pos (by rw [hlinks1]; norm_num : 0 < (citationLinks md.groundingChunks [i1]).length)]
  have hA : (t.data.take 20).length = 20 := by
    rw [List.length_take]
    omega
  simp only [addCitations]
  rw [hsort, hsup2]
  norm_num
  rw [hstep2, hstep1]
  simp only [strInsert]
  have etake : ((t.data.take 20 ++ (citationMarker md.groundingChunks [i2]).data)
      ++ t.data.drop 20).take 10 = t.data.take 10 := by
    rw [List.append_assoc, List.take_append_eq_append_take, hA]
    simp [List.take_take]
  have edrop : ((t.data.take 20 ++ (citationMarker md.groundingChunks [i2]).data)
      ++ t.data.drop 20).drop 10
      = (t.data.take 20).drop 10 ++ ((citationMarker md.groundingChunks [i2]).data
          ++ t.data.drop 20) := by
    rw [List.append_assoc, List.drop_append_eq_append_drop, hA]
    simp
  rw [etake, edrop]
  simp [List.append_assoc]

/-- Witness for C2 amended at the concrete citation-order inputs. -/
theorem addCitations_two_supports_witness :
    (addCitations c2Text (some c2Metadata)).data =
      c2Text.data.take 10 ++ (citationMarker c2Metadata.groundingChunks [0]).data
        ++ (c2Text.data.take 20).drop 10 ++ (citationMarker c2Metadata.groundingChunks [1]).data
        ++ c2Text.data.drop 20 :=
  addCitations_two_supports c2Text c2Metadata ⟨⟨0, 10, ""⟩, [0]⟩ ⟨⟨0, 20, ""⟩, [1]⟩ 0 1
    (Or.inl rfl) rfl rfl rfl rfl (by decide) (by decide) (by decide) (by decide)

/-- The speaker component of the fragment scan is the last non-empty
speaker supplied, else the accumulator. -/
theorem scan_speaker (segments : List UtteranceSegment) :
    ∀ (i : Nat) (sp : String) (ts : Int) (txt : String),
      (scanSegmentsAux i segments sp ts txt).1 = (suppliedSpeakers segments).getLastD sp := by
  induction segments with
  | nil => intro i sp ts txt; rfl
  | cons seg rest ih =>
    intro i sp ts txt
    obtain ⟨spk, tx, tms⟩ := seg
    simp only [scanSegmentsAux]
    rw [ih]
    cases spk with
    | none => simp [suppliedSpeakers, List.filterMap_cons]
    | some s =>
      by_cases hs : s = ""
      · simp [suppliedSpeakers, List.filterMap_cons, hs]
      · simp only [suppliedSpeakers, List.filterMap_cons, if_neg hs]
        rw [List.getLastD_cons]

/-- The timestamp component of the fragment scan is the last supplied
numeric timestamp, else the accumulator. -/
theorem scan_timestamp (segments : List UtteranceSegment) :
    ∀ (i : Nat) (sp : String) (ts : Int) (txt : String),
      (scanSegmentsAux i segments sp ts txt).2.1 = (suppliedTimestamps segments).getLastD ts := by
  induction segments with
  | nil => intro i sp ts txt; rfl
  | cons seg rest ih =>
    intro i sp ts txt
    obtain ⟨spk, tx, tms⟩ := seg
    simp only [scanSegmentsAux]
    rw [ih]
    cases tms with
    | none => simp [suppliedTimestamps, List.filterMap_cons]
    | some v =>
      simp only [suppliedTimestamps, List.filterMap_cons]
      rw [List.getLastD_cons]

/-- Starting at any positive fragment index, the scan appends one space
and the text of every contributing fragment to the accumulator. -/
theorem scan_text_pos (segments : List UtteranceSegment) :
    ∀ (i : Nat) (sp : String) (ts : Int) (txt : String),
      (scanSegmentsAux (i + 1) segments sp ts txt).2.2 = txt ++ prefixedTexts segments := by
  induction segments with
  | nil => intro i sp ts txt; simp [scanSegmentsAux, prefixedTexts, str_append_empty]
  | cons seg rest ih =>
    intro i sp ts txt
    obtain ⟨spk, tx, tms⟩ := seg
    simp only [scanSegmentsAux]
    rw [ih]
    have hpos : 0 < i + 1 := Nat.succ_pos i
    cases tx with
    | none => simp [prefixedTexts, str_empty_append]
    | some u =>
      by_cases hu : u = ""
      · simp [prefixedTexts, hu, str_empty_append]
      · simp [prefixedTexts, hu, hpos, str_append_assoc]

/-- When no fragment supplies non-empty text the scan leaves the text
accumulator untouched. -/
theorem scan_text_empty : ∀ (segments : List UtteranceSegment),
    (∀ seg ∈ segments, seg.text.getD "" = "") →
    ∀ (i : Nat) (sp : String) (ts : Int) (txt : String),
      (scanSegmentsAux i segments sp ts txt).2.2 = txt := by
  intro segments
  induction segments with
  | nil => intro _ i sp ts txt; rfl
  | cons seg rest ih =>
    intro h i sp ts txt
    have hseg := h seg (List.mem_cons_self seg rest)
    have hrest : ∀ s ∈ rest, s.text.getD "" = "" :=
      fun s hs => h s (List.mem_cons_of_mem seg hs)
    obtain ⟨spk, tx, tms⟩ := seg
    simp only [scanSegmentsAux]
    rw [ih hrest]
    cases tx with
    | none => rfl
    | some u =>
      simp only [Option.getD_some] at hseg
      simp [hseg]

/-- Unfolding of a successful ingestion: with a non-empty batch whose
scan produced non-empty text, ProcessUtterance appends the scanned
entry, updates the counters, saves, and evaluates the trigger. -/
theorem processUtterance_pos (now la : Int) (segments : List UtteranceSegment)
    (d : AnalysisData) (hlen : segments ≠ [])
    (htext : (scanSegmentsAux 0 segments "Participant" now "").2.2 ≠ "") :
    processUtterance now la segments d =
      ⟨{ d with
          transcript := d.transcript ++
            [⟨(scanSegmentsAux 0 segments "Participant" now "").2.1,
              (scanSegmentsAux 0 segments "Participant" now "").1,
              (scanSegmentsAux 0 segments "Participant" now "").2.2, false⟩]
          participants := updateParticipants d.participants
            (scanSegmentsAux 0 segments "Participant" now "").1
          lastUpdated := now
          wordCount := d.wordCount +
            fieldsCount (scanSegmentsAux 0 segments "Participant" now "").2.2
          durationMinutes := now - d.startTime },
        true,
        decide (300 < now - la) ||
          decide ((d.transcript ++
            ([⟨(scanSegmentsAux 0 segments "Participant" now "").2.1,
              (scanSegmentsAux 0 segments "Participant" now "").1,
              (scanSegmentsAux 0 segments "Participant" now "").2.2, false⟩] :
              List TranscriptEntry)).length % 20 = 0)⟩ := by
  simp only [processUtterance]
  rw [if_neg (show ¬ segments.length = 0 by simpa using hlen), if_neg htext]

/-- C4: a batch in which no fragment supplies non-empty text is a
complete no-op: the record (transcript, word count, participants,
duration, lastUpdated) is returned unchanged, nothing is persisted and
no analysis cycle is triggered. -/
theorem processUtterance_empty_batch_noop (now la : Int) (segments : List UtteranceSegment)
    (d : AnalysisData)
    (h : ∀ seg ∈ segments, seg.text.getD "" = "") :
    processUtterance now la segments d = ⟨d, false, false⟩ := by
  by_cases h0 : segments.length = 0
  · simp [processUtterance, h0]
  · have htext : (scanSegmentsAux 0 segments "Participant" now "").2.2 = "" :=
      scan_text_empty segments h 0 "Participant" now ""
    simp [processUtterance, h0, htext]

/-- Witness for C4 at a concrete empty-text batch. -/
theorem processUtterance_empty_batch_noop_witness :
    processUtterance 5 7 [⟨some "Alice", some "", none⟩] exAnalysisData
      = ⟨exAnalysisData, false, false⟩ :=
  processUtterance_empty_batch_noop 5 7 [⟨some "Alice", some "", none⟩] exAnalysisData
    (by decide)

/-- C6: after every successful ingestion (one that saved), a cycle is
triggered exactly when more than 300 seconds (5 minutes) elapsed since
the last cycle start, or the transcript length after the append is an
exact multiple of 20. -/
theorem processUtterance_trigger_iff (now la : Int) (segments : List UtteranceSegment)
    (d : AnalysisData)
    (h : (processUtterance now la segments d).saved = true) :
    ((processUtterance now la segments d).triggered = true ↔
      (300 < now - la ∨
        (processUtterance now la segments d).data.transcript.length % 20 = 0)) := by
  by_cases h0 : segments.length = 0
  · simp [processUtterance, h0] at h
  · by_cases h1 : (scanSegmentsAux 0 segments "Participant" now "").2.2 = ""
    · simp [processUtterance, h0, h1] at h
    · have hne : segments ≠ [] := fun he => h0 (by simp [he])
      rw [processUtterance_pos now la segments d hne h1]
      simp [Bool.or_eq_true, decide_eq_true_iff]

/-- Witness for C6 at a concrete successful ingestion. -/
theorem processUtterance_trigger_iff_witness :
    ((processUtterance 1000 0 [⟨some "Bob", some "hello world", some 42⟩]
        exAnalysisData).triggered = true ↔
      (300 < (1000 : Int) - 0 ∨
        (processUtterance 1000 0 [⟨some "Bob", some "hello world", some 42⟩]
          exAnalysisData).data.transcript.length % 20 = 0)) :=
  processUtterance_trigger_iff 1000 0 [⟨some "Bob", some "hello world", some 42⟩]
    exAnalysisData (by decide)

/-- C10: every batch accepted by ingestion appends exactly one entry and
that entry carries isAgent = false; the ingestion path never marks an
entry as agent-authored. -/
theorem processUtterance_isAgent_false (now la : Int) (segments : List UtteranceSegment)
    (d : AnalysisData)
    (h : (processUtterance now la segments d).saved = true) :
    ∃ e : TranscriptEntry,
      (processUtterance now la segments d).data.transcript = d.transcript ++ [e] ∧
      e.isAgent = false := by
  by_cases h0 : segments.length = 0
  · simp [processUtterance, h0] at h
  · by_cases h1 : (scanSegmentsAux 0 segments "Participant" now "").2.2 = ""
    · simp [processUtterance, h0, h1] at h
    · have hne : segments ≠ [] := fun he => h0 (by simp [he])
      refine ⟨⟨(scanSegmentsAux 0 segments "Participant" now "").2.1,
        (scanSegmentsAux 0 segments "Participant" now "").1,
        (scanSegmentsAux 0 segments "Participant" now "").2.2, false⟩, ?_, rfl⟩
      rw [processUtterance_pos now la segments d hne h1]

/-- Witness for C10 at a concrete accepted batch. -/
theorem processUtterance_isAgent_false_witness :
    ∃ e : TranscriptEntry,
      (processUtterance 1000 0 [⟨some "Bob", some "hi", some 42⟩]
          exAnalysisData).data.transcript
        = exAnalysisData.transcript ++ [e] ∧ e.isAgent = false :=
  processUtterance_isAgent_false 1000 0 [⟨some "Bob", some "hi", some 42⟩] exAnalysisData
    (by decide)

/-- C3 counterexample: the batch with fragment texts empty, a, empty, b
is accepted and produces entry text with a leading space and single
spaces between contributions, which differs from the non-empty fragment
texts joined with single spaces and also from all fragment texts joined
with single spaces. -/
theorem processUtterance_text_join_cex :
    (processUtterance 100 0 c3Segments exAnalysisData).data.transcript
      = [⟨100, "Participant", " a b", false⟩] ∧
    " a b" ≠ joinSpace (nonEmptyTexts c3Segments) ∧
    " a b" ≠ joinSpace (c3Segments.map (fun seg => seg.text.getD "")) := by
  refine ⟨by decide, by decide, by decide⟩

/-- The positive-index contributions equal the space-prefixed join of
the non-empty texts. -/
theorem prefixedTexts_eq (segments : List UtteranceSegment) :
    prefixedTexts segments = joinSpacePrefixed (nonEmptyTexts segments) := by
  induction segments with
  | nil => rfl
  | cons seg rest ih =>
    obtain ⟨spk, tx, tms⟩ := seg
    cases tx with
    | none => simp [prefixedTexts, nonEmptyTexts, List.filterMap_cons, str_empty_append, ih]
    | some u =>
      by_cases hu : u = ""
      · simp [prefixedTexts, nonEmptyTexts, List.filterMap_cons, hu, str_empty_append, ih]
      · simp [prefixedTexts, nonEmptyTexts, List.filterMap_cons, hu, joinSpacePrefixed,
          str_append_assoc, ih]

/-- The single-space join of a non-empty list is its head followed by
the space-prefixed join of its tail. -/
theorem joinSpace_cons_eq (t : String) (l : List String) :
    joinSpace (t :: l) = t ++ joinSpacePrefixed l := by
  induction l generalizing t with
  | nil => simp [joinSpace, joinSpacePrefixed, str_append_empty]
  | cons u rest ih =>
    show t ++ " " ++ joinSpace (u :: rest) = t ++ joinSpacePrefixed (u :: rest)
    rw [ih u]
    show t ++ " " ++ (u ++ joinSpacePrefixed rest) = t ++ (" " ++ u ++ joinSpacePrefixed rest)
    simp [str_append_assoc]

/-- The single-space join of a list with a non-empty head is non-empty. -/
theorem joinSpace_ne_empty (x : String) (xs : List String) (hx : x ≠ "") :
    joinSpace (x :: xs) ≠ "" := by
  rw [joinSpace_cons_eq]
  intro hcontra
  apply hx
  have hdata := congrArg String.data hcontra
  rw [strData_append] at hdata
  have hx0 : x.data = [] := (List.append_eq_nil.mp hdata).1
  exact strEq_of_data (by rw [hx0])

/-- The head of the non-empty-texts list is a non-empty string. -/
theorem head_nonEmptyTexts_ne (segments : List UtteranceSegment) (x : String)
    (xs : List String) (h : nonEmptyTexts segments = x :: xs) : x ≠ "" := by
  intro hxe
  subst hxe
  have hx : "" ∈ nonEmptyTexts segments := by
    rw [h]
    exact List.mem_cons_self "" xs
  simp only [nonEmptyTexts] at hx
  obtain ⟨seg, hmem, hf⟩ := List.mem_filterMap.mp hx
  cases htx : seg.text with
  | none =>
    rw [htx] at hf
    simp at hf
  | some u =>
    rw [htx] at hf
    by_cases hu : u = ""
    · simp [hu] at hf
    · simp [hu] at hf

/-- The scanned text of an accepted batch is the leading-space artifact
followed by the single-space join of the non-empty fragment texts. -/
theorem scan_text_shape (seg : UtteranceSegment) (rest : List UtteranceSegment)
    (h : nonEmptyTexts (seg :: rest) ≠ []) (sp : String) (ts : Int) :
    (scanSegmentsAux 0 (seg :: rest) sp ts "").2.2
      = leadingSpaceMark (seg :: rest) ++ joinSpace (nonEmptyTexts (seg :: rest)) := by
  obtain ⟨spk, tx, tms⟩ := seg
  simp only [scanSegmentsAux]
  rw [scan_text_pos, prefixedTexts_eq]
  cases tx with
  | none =>
    have hcons : nonEmptyTexts (⟨spk, none, tms⟩ :: rest) = nonEmptyTexts rest := by
      simp [nonEmptyTexts, List.filterMap_cons]
    rw [hcons] at h ⊢
    obtain ⟨y, ys, hys⟩ := List.exists_cons_of_ne_nil h
    rw [hys, joinSpace_cons_eq]
    show "" ++ joinSpacePrefixed (y :: ys) = " " ++ (y ++ joinSpacePrefixed ys)
    rw [str_empty_append]
    show " " ++ y ++ joinSpacePrefixed ys = " " ++ (y ++ joinSpacePrefixed ys)
    rw [str_append_assoc]
  | some u =>
    by_cases hu : u = ""
    · have hcons : nonEmptyTexts (⟨spk, some u, tms⟩ :: rest) = nonEmptyTexts rest := by
        simp [nonEmptyTexts, List.filterMap_cons, hu]
      rw [hcons] at h ⊢
      obtain ⟨y, ys, hys⟩ := List.exists_cons_of_ne_nil h
      rw [hys, joinSpace_cons_eq]
      simp only [hu, if_pos rfl]
      show "" ++ joinSpacePrefixed (y :: ys) = " " ++ (y ++ joinSpacePrefixed ys)
      rw [str_empty_append]
      show " " ++ y ++ joinSpacePrefixed ys = " " ++ (y ++ joinSpacePrefixed ys)
      rw [str_append_assoc]
    · have hcons : nonEmptyTexts (⟨spk, some u, tms⟩ :: rest) = u :: nonEmptyTexts rest := by
        simp [nonEmptyTexts, List.filterMap_cons, hu]
      rw [hcons, joinSpace_cons_eq]
      simp [leadingSpaceMark, hu, str_empty_append, str_append_assoc]

/-- C3 amended: for every batch in which some fragment supplies
non-empty text, ingestion appends exactly one entry whose text is the
non-empty fragment texts joined with single spaces, preceded by one
extra space when the first fragment supplies no non-empty text; whose
speaker is the last non-empty speaker supplied (placeholder Participant
if none); whose timestamp is the last numeric timestamp supplied
(wall-clock now if none); and the entry is not agent-authored. -/
theorem processUtterance_append_shape (now la : Int) (segments : List UtteranceSegment)
    (d : AnalysisData) (h : nonEmptyTexts segments ≠ []) :
    ∃ e : TranscriptEntry,
      (processUtterance now la segments d).data.transcript = d.transcript ++ [e] ∧
      e.text = leadingSpaceMark segments ++ joinSpace (nonEmptyTexts segments) ∧
      e.speaker = (suppliedSpeakers segments).getLastD "Participant" ∧
      e.timestamp = (suppliedTimestamps segments).getLastD now ∧
      e.isAgent = false ∧
      (processUtterance now la segments d).saved = true := by
  cases segments with
  | nil => simp [nonEmptyTexts] at h
  | cons seg rest =>
    have htext := scan_text_shape seg rest h "Participant" now
    have htextne : (scanSegmentsAux 0 (seg :: rest) "Participant" now "").2.2 ≠ "" := by
      rw [htext]
      obtain ⟨y, ys, hys⟩ := List.exists_cons_of_ne_nil h
      have hy : y ≠ "" := head_nonEmptyTexts_ne _ y ys hys
      rw [hys]
      intro hcontra
      have hdata := congrArg String.data hcontra
      rw [strData_append] at hdata
      have h2 := (List.append_eq_nil.mp hdata).2
      exact joinSpace_ne_empty y ys hy (strEq_of_data (by rw [h2]))
    refine ⟨⟨(scanSegmentsAux 0 (seg :: rest) "Participant" now "").2.1,
      (scanSegmentsAux 0 (seg :: rest) "Participant" now "").1,
      (scanSegmentsAux 0 (seg :: rest) "Participant" now "").2.2, false⟩, ?_, htext,
      scan_speaker (seg :: rest) 0 "Participant" now "",
      scan_timestamp (seg :: rest) 0 "Participant" now "", rfl, ?_⟩
    · rw [processUtterance_pos now la (seg :: rest) d (by simp) htextne]
    · rw [processUtterance_pos now la (seg :: rest) d (by simp) htextne]

/-- Witness for C3 amended at a concrete one-fragment batch. -/
theorem processUtterance_append_shape_witness :
    ∃ e : TranscriptEntry,
      (processUtterance 500 0 [⟨some "Bob", some "hi", some 42⟩]
          exAnalysisData).data.transcript
        = exAnalysisData.transcript ++ [e] ∧
      e.text = leadingSpaceMark [⟨some "Bob", some "hi", some 42⟩]
          ++ joinSpace (nonEmptyTexts [⟨some "Bob", some "hi", some 42⟩]) ∧
      e.speaker = (suppliedSpeakers [⟨some "Bob", some "hi", some 42⟩]).getLastD "Participant" ∧
      e.timestamp = (suppliedTimestamps [⟨some "Bob", some "hi", some 42⟩]).getLastD 500 ∧
      e.isAgent = false ∧
      (processUtterance 500 0 [⟨some "Bob", some "hi", some 42⟩] exAnalysisData).saved
        = true :=
  processUtterance_append_shape 500 0 [⟨some "Bob", some "hi", some 42⟩] exAnalysisData
    (by decide)

/-- Writing the text field through a heap address is observed by every
read of the same address. -/
theorem heapRead_writeText (heap : List GroundedContent) :
    ∀ (r : Nat) (s : String),
      heapRead (heapWriteText heap r s) r
        = (heapRead heap r).map (fun gc => { gc with text := s }) := by
  induction heap with
  | nil => intro r s; cases r <;> rfl
  | cons gc rest ih =>
    intro r s
    cases r with
    | zero => rfl
    | succ n => exact ih n s

/-- C5 counterexample: the accessor copies the grounded-summary pointer,
so at a concrete record whose grounded summary sits at heap address 0,
writing through the address held by the returned copy changes the
grounded summary content seen through the record held by the agent from
original to mutated: the returned value is not a deep copy. -/
theorem getAnalysis_shared_grounded_cex :
    (getAnalysis exAnalysisData).groundedSummaryRef = some 0 ∧
    (readRef exHeap exAnalysisData.groundedSummaryRef).map GroundedContent.text
      = some "original" ∧
    (readRef (heapWriteText exHeap 0 "mutated") exAnalysisData.groundedSummaryRef).map
        GroundedContent.text = some "mutated" :=
  ⟨rfl, rfl, rfl⟩

/-- C5 amended: the accessor returns a value structurally equal to the
record whose value-typed lists are fresh copies, but the grounded
summary and grounded key-points fields are copied as pointers: the copy
holds the same addresses as the record, and writing the content text
through an address held by the copy changes the grounded content the
agent record sees to the written string. -/
theorem getAnalysis_copy_amended (d : AnalysisData) (heap : List GroundedContent) :
    getAnalysis d = d ∧
    (getAnalysis d).groundedSummaryRef = d.groundedSummaryRef ∧
    (getAnalysis d).groundedKeyPointsRef = d.groundedKeyPointsRef ∧
    (∀ (r : Nat) (s : String), (getAnalysis d).groundedSummaryRef = some r →
      (readRef (heapWriteText heap r s) d.groundedSummaryRef).map GroundedContent.text
        = (readRef heap d.groundedSummaryRef).map (fun _ => s)) ∧
    (∀ (r : Nat) (s : String), (getAnalysis d).groundedKeyPointsRef = some r →
      (readRef (heapWriteText heap r s) d.groundedKeyPointsRef).map GroundedContent.text
        = (readRef heap d.groundedKeyPointsRef).map (fun _ => s)) := by
  have hcopy : getAnalysis d = d := rfl
  refine ⟨hcopy, rfl, rfl, ?_, ?_⟩
  · intro r s hr
    rw [hcopy] at hr
    rw [hr]
    show (heapRead (heapWriteText heap r s) r).map GroundedContent.text
      = (heapRead heap r).map (fun _ => s)
    rw [heapRead_writeText]
    cases heapRead heap r <;> rfl
  · intro r s hr
    rw [hcopy] at hr
    rw [hr]
    show (heapRead (heapWriteText heap r s) r).map GroundedContent.text
      = (heapRead heap r).map (fun _ => s)
    rw [heapRead_writeText]
    cases heapRead heap r <;> rfl

/-- Witness for C5 amended at the concrete record and heap. -/
theorem getAnalysis_copy_amended_witness :
    (readRef (heapWriteText exHeap 0 "changed") exAnalysisData.groundedSummaryRef).map
        GroundedContent.text
      = (readRef exHeap exAnalysisData.groundedSummaryRef).map (fun _ => "changed") :=
  (getAnalysis_copy_amended exAnalysisData exHeap).2.2.2.1 0 "changed" rfl
